import Mathlib

/-!
Verification development for the `flattering` package
(`src/flattering/__init__.py`): a shallow embedding of the
schema-inference ("stats collection") and CSV row-export engine, together
with theorems settling the specification claims.

JSON-like runtime values are modelled by `JValue`; Python dicts are
insertion-ordered association lists; machine behaviour that raises is
modelled with `Except PyErr`.  The stats collector's mutual recursion is
embedded with an explicit fuel parameter (the Python recursion re-enters
`_process_base_object` on values taken from the mutable state, which is
not structural); every fuel-indexed function returns the state unchanged
when fuel runs out, and the public wrappers supply fuel that is provably
sufficient for the inputs of interest.

Places where the Python source would raise an *unhandled* `KeyError` on
states that the public entry points cannot produce (e.g. reading
`self._stats[prefix]["properties"]` when the descriptor has no
`properties` key) are modelled as leaving the state unchanged; each such
spot is marked with a comment.
-/

/-- JSON-like runtime values: `None`, booleans, integers, strings,
lists/tuples, and (insertion-ordered) dicts with string keys. -/
inductive JValue where
  | vNull : JValue
  | vBool : Bool → JValue
  | vInt : Int → JValue
  | vStr : String → JValue
  | vArr : List JValue → JValue
  | vObj : List (String × JValue) → JValue
deriving Repr

namespace Flat

open JValue

/-- Python `is_hashable` from the source: true for `None` and any
hashable non-tuple value; our scalars are exactly the non-container
constructors (tuples are modelled as `vArr`, matching the source's
choice to treat them as sequences). -/
def is_hashable : JValue → Bool
  | .vNull => true
  | .vBool _ => true
  | .vInt _ => true
  | .vStr _ => true
  | .vArr _ => false
  | .vObj _ => false

/-- Python `is_list`: true for list or tuple (both are `vArr` here). -/
def is_list : JValue → Bool
  | .vArr _ => true
  | _ => false

def isObj : JValue → Bool
  | .vObj _ => true
  | _ => false

/-- Tag of the Python runtime type of a value (`type(x)`); used by the
top-level homogeneity check of `process_items`. -/
def pyTypeTag : JValue → Nat
  | .vNull => 0
  | .vBool _ => 1
  | .vInt _ => 2
  | .vStr _ => 3
  | .vArr _ => 4
  | .vObj _ => 5

/-- Python truthiness of a value (`bool(x)`). -/
def pyFalsy : JValue → Bool
  | .vNull => true
  | .vBool b => !b
  | .vInt n => n == 0
  | .vStr s => s.isEmpty
  | .vArr xs => xs.isEmpty
  | .vObj kvs => kvs.isEmpty

/- Structural equality test mirroring Python `==` on JSON data.
(Python additionally identifies `True` with `1`; that corner is not
exercised by any claim and is not modelled.) -/
mutual
def jbeq : JValue → JValue → Bool
  | .vNull, .vNull => true
  | .vBool a, .vBool b => a == b
  | .vInt a, .vInt b => a == b
  | .vStr a, .vStr b => a == b
  | .vArr a, .vArr b => jbeqList a b
  | .vObj a, .vObj b => jbeqObj a b
  | _, _ => false

def jbeqList : List JValue → List JValue → Bool
  | [], [] => true
  | a :: la, b :: lb => jbeq a b && jbeqList la lb
  | _, _ => false

def jbeqObj : List (String × JValue) → List (String × JValue) → Bool
  | [], [] => true
  | (k, a) :: la, (l, b) :: lb => k == l && jbeq a b && jbeqObj la lb
  | _, _ => false
end

/-- Single quote character, used by the Python `repr` of strings. -/
def sq : String := String.singleton (Char.ofNat 39)

/- Python `str` and `repr` rendering of values, as used when the exporter
stringifies a cell.  String `repr` is simplified to plain single-quote
wrapping (no escape analysis); no claim inspects the rendering of a
string that would need escapes. -/
mutual
def pyStr : JValue → String
  | .vNull => "None"
  | .vBool b => if b then "True" else "False"
  | .vInt n => toString n
  | .vStr s => s
  | .vArr xs => "[" ++ pyReprList xs ++ "]"
  | .vObj kvs => "\x7b" ++ pyReprObj kvs ++ "\x7d"

def pyRepr : JValue → String
  | .vNull => "None"
  | .vBool b => if b then "True" else "False"
  | .vInt n => toString n
  | .vStr s => sq ++ s ++ sq
  | .vArr xs => "[" ++ pyReprList xs ++ "]"
  | .vObj kvs => "\x7b" ++ pyReprObj kvs ++ "\x7d"

def pyReprList : List JValue → String
  | [] => ""
  | [x] => pyRepr x
  | x :: rest => pyRepr x ++ ", " ++ pyReprList rest

def pyReprObj : List (String × JValue) → String
  | [] => ""
  | [(k, v)] => sq ++ k ++ sq ++ ": " ++ pyRepr v
  | (k, v) :: rest => sq ++ k ++ sq ++ ": " ++ pyRepr v ++ ", " ++ pyReprObj rest
end

/-! ### Kernel-reducible string helpers

Core `String.splitOn` / `String.replace` / `String.isPrefixOf` are
implemented with well-founded recursion and do not reduce inside the
kernel; the embedding uses the following structurally recursive
equivalents (scanning the character list with a skip counter). -/

/-- Does `pre` start `s`? (Python `s.startswith(pre)`.) -/
def pyStartsWith (pre s : String) : Bool :=
  pre.toList.isPrefixOf s.toList

/-- Split on a (non-empty) separator, Python `s.split(sep)`:
`skip` counts separator characters still to be consumed. -/
def splitSepChars (sep : List Char) : List Char → Nat → List Char → List (List Char)
  | [], _, acc => [acc.reverse]
  | _ :: rest, skip + 1, acc => splitSepChars sep rest skip acc
  | c :: rest, 0, acc =>
    if sep.isPrefixOf (c :: rest) then
      acc.reverse :: splitSepChars sep rest (sep.length - 1) []
    else splitSepChars sep rest 0 (c :: acc)

/-- Python `s.split(sep)` for non-empty `sep` (empty `sep` raises in
Python; returned whole here, never used). -/
def pySplit (s sep : String) : List String :=
  if sep.isEmpty then [s]
  else (splitSepChars sep.toList s.toList 0 []).map String.mk

/-- Replace every (non-overlapping, left-to-right) occurrence. -/
def replaceChars (pat rep : List Char) : List Char → Nat → List Char
  | [], _ => []
  | _ :: rest, skip + 1 => replaceChars pat rep rest skip
  | c :: rest, 0 =>
    if pat.isPrefixOf (c :: rest) then rep ++ replaceChars pat rep rest (pat.length - 1)
    else c :: replaceChars pat rep rest 0

/-- Python `s.replace(pat, rep)` for non-empty `pat`. -/
def pyReplace (s pat rep : String) : String :=
  if pat.isEmpty then s
  else String.mk (replaceChars pat.toList rep.toList s.toList 0)

/-! ### Insertion-ordered dictionaries (Python `dict`) -/

/-- Lookup in an insertion-ordered association list (Python `d.get(k)`). -/
def lookupA {α : Type} : List (String × α) → String → Option α
  | [], _ => none
  | (k, v) :: rest, key => if k = key then some v else lookupA rest key

/-- Key membership (Python `k in d`). -/
def memA {α : Type} (l : List (String × α)) (k : String) : Bool :=
  (lookupA l k).isSome

/-- Python dict assignment `d[k] = v`: overwrite in place if the key
exists (keeping its position), otherwise append. -/
def setA {α : Type} : List (String × α) → String → α → List (String × α)
  | [], key, v => [(key, v)]
  | (k, w) :: rest, key, v =>
    if k = key then (k, v) :: rest else (k, w) :: setA rest key v

/-- Python `d.pop(k)`: remove the entry with the given key. -/
def popA {α : Type} (l : List (String × α)) (key : String) : List (String × α) :=
  l.filter (fun kv => kv.1 ≠ key)

/-! ### Stats data model -/

/-- `Property` from the source: insertion-ordered distinct values plus
the `limited` latch.  Python stores values as the keys of a dict mapping
to `None`; here they are the key list itself. -/
structure Property where
  values : List JValue := []
  limited : Bool := false
deriving Repr

/-- `Header` (shape descriptor) from the source: a Python dict with
optional keys `count`, `properties`, `type`.  The empty descriptor `{}`
has all fields absent. -/
structure Header where
  count : Option Nat := none
  properties : Option (List (String × Property)) := none
  type : Option String := none
deriving Repr

/-- Python `descriptor == {}`. -/
def Header.isEmptyD (d : Header) : Bool :=
  d.count.isNone && d.properties.isNone && d.type.isNone

/-- Python truthiness of a descriptor dict (`not d` is `isEmptyD`). -/
def Header.truthy (d : Header) : Bool := !d.isEmptyD

/-- Python exceptions that the embedded code can raise. -/
inductive PyErr where
  | typeError (msg : String)
  | valueError (msg : String)
  | attributeError (msg : String)
  | indexError (msg : String)
  | notImplementedError
deriving Repr

/-- The `StatsCollector` state: configuration plus the two mutable maps
(`_stats`, `_invalid_properties`). -/
structure StatsCollector where
  named_columns_limit : Nat := 20
  cut_separator : String := "->"
  stats : List (String × Header) := []
  invalid_properties : List (String × String) := []
deriving Repr

namespace StatsCollector

/-- `self._stats.get(p, {}).get("count")`. -/
def countAt (sc : StatsCollector) (p : String) : Option Nat :=
  match lookupA sc.stats p with
  | some d => d.count
  | none => none

/-- `self._stats.get(p, {}).get("properties")` as stored (may be `some []`). -/
def propsAt (sc : StatsCollector) (p : String) : Option (List (String × Property)) :=
  match lookupA sc.stats p with
  | some d => d.properties
  | none => none

/-- The `Property` recorded for sub-property `n` of path `p`, if any. -/
def propAt (sc : StatsCollector) (p n : String) : Option Property :=
  match propsAt sc p with
  | some props => lookupA props n
  | none => none

/-- `clear_outdated_stats` from the source: drop every stats entry whose
key matches `^(prefix\[\d+\].*|prefix<sep>.*)`.  The regex is modelled
semantically (the source interpolates `prefix` into the pattern
verbatim, which also works only for regex-neutral prefixes). -/
def matchesOutdated (sep pre k : String) : Bool :=
  (let opened := pre ++ "["
   if pyStartsWith opened k then
     let rest := (k.drop opened.length).toList
     let ds := rest.takeWhile Char.isDigit
     decide (ds ≠ []) && (match rest.drop ds.length with
       | ']' :: _ => true
       | _ => false)
   else false)
  || pyStartsWith (pre ++ sep) k

def clear_outdated_stats (sc : StatsCollector) (pre : String) : StatsCollector :=
  { sc with stats :=
      sc.stats.filter (fun kv => !(matchesOutdated sc.cut_separator pre kv.1)) }

/-- Mark a path invalid, purge its descendants, and reset its descriptor
to `{}` — the three-step pattern used by `_process_base_object`. -/
def invalidate (sc : StatsCollector) (p msg : String) : StatsCollector :=
  let sc1 := { sc with invalid_properties := setA sc.invalid_properties p msg }
  let sc2 := sc1.clear_outdated_stats p
  { sc2 with stats := setA sc2.stats p {} }

/-- `_map_types` + `isinstance` check: does the value match the recorded
type tag?  An unexpected tag would make Python call `isinstance(v, None)`
and raise `TypeError`; only "object"/"array" are ever stored, so the
fallthrough is modelled as a match. -/
def matchesType (v : JValue) : String → Bool
  | "object" => isObj v
  | "array" => is_list v
  | _ => true

/-- `_process_hashable_value` from the source.  Python reads
`self._stats[prefix]["properties"]` unguarded; when the descriptor is
absent or has no `properties` key that read raises `KeyError` — modelled
as leaving the state unchanged. -/
def process_hashable_value (sc : StatsCollector)
    (property_name : String) (property_value : JValue) (pre : String) :
    StatsCollector :=
  match lookupA sc.stats pre with
  | none => sc        -- Python: KeyError
  | some d =>
    match d.properties with
    | none => sc      -- Python: KeyError
    | some props =>
      match lookupA props property_name with
      | some pd =>
        if pd.limited then sc
        else
          let vs :=
            if pd.values.any (fun w => jbeq w property_value) then pd.values
            else pd.values ++ [property_value]
          let pd' : Property :=
            if vs.length > sc.named_columns_limit then { values := [], limited := true }
            else { values := vs, limited := false }
          { sc with stats := setA sc.stats pre { d with properties := some (setA props property_name pd') } }
      | none =>
        -- fresh property: create, insert the value, then apply the limit check
        let vs := [property_value]
        let pd' : Property :=
          if vs.length > sc.named_columns_limit then { values := [], limited := true }
          else { values := vs, limited := false }
        { sc with stats := setA sc.stats pre { d with properties := some (setA props property_name pd') } }

/-- `_process_hashable_object` from the source. -/
def process_hashable_object (sc : StatsCollector)
    (kvs : List (String × JValue)) (pre : String) : StatsCollector :=
  let sc :=
    match lookupA sc.stats pre with
    | some d => if d.truthy then sc
        else { sc with stats := setA sc.stats pre { properties := some [], type := some "object" } }
    | none => { sc with stats := setA sc.stats pre { properties := some [], type := some "object" } }
  kvs.foldl (fun acc kv =>
    -- skip None values
    match kv.2 with
    | .vNull => acc
    | v => acc.process_hashable_value kv.1 v pre) sc


/- The mutually recursive walk of `StatsCollector`
(`process_object` / `_process_base_object` / `_process_array` /
`_process_base_array`), embedded with a fuel parameter; every
cross-call decrements fuel, and exhausted fuel leaves the state
unchanged.  Loops over dict items / array elements are `foldl`s over the
insertion-ordered lists, exactly mirroring the Python iteration order. -/
mutual

/-- `process_object` from the source (the record is passed as its
insertion-ordered item list). -/
def process_object : Nat → StatsCollector → List (String × JValue) → String → StatsCollector
  | 0, sc, _, _ => sc
  | fuel + 1, sc, kvs, pre =>
    if memA sc.invalid_properties pre then sc
    else
      let values_hashable : List (String × Bool) :=
        kvs.map (fun kv => (kv.1, is_hashable kv.2))
      -- `count: 0` means the prefix is degenerate: process per-key
      if sc.countAt pre == some 0 then
        process_base_object fuel sc kvs pre (some values_hashable)
      else if values_hashable.all (fun kv => kv.2) && pre ≠ "" then
        sc.process_hashable_object kvs pre
      else
        -- rebuild previously collected hashable properties, if any
        let sc1 :=
          match lookupA sc.stats pre with
          | some d =>
            match d.properties with
            | some props =>
              if props.isEmpty then sc
              else
                let popped := { sc with stats := popA sc.stats pre }
                props.foldl (fun acc np =>
                  np.2.values.foldl (fun acc2 v =>
                    process_base_object fuel acc2 [(np.1, v)] pre none) acc) popped
            | none => sc
          | none => sc
        let sc2 :=
          if pre ≠ "" then
            { sc1 with stats := setA sc1.stats pre { count := some 0, type := some "object" } }
          else sc1
        process_base_object fuel sc2 kvs pre (some values_hashable)

/-- `_process_base_object` from the source.  `vh` is the
`values_hashable` dict (`none` when the Python caller passes `None`). -/
def process_base_object : Nat → StatsCollector → List (String × JValue) → String →
    Option (List (String × Bool)) → StatsCollector
  | 0, sc, _, _, _ => sc
  | fuel + 1, sc, kvs, pre, vh =>
    kvs.foldl (fun acc kv =>
      let property_name := kv.1
      match kv.2 with
      | .vNull => acc  -- skip None values
      | property_value =>
        let property_path :=
          if pre ≠ "" then pre ++ acc.cut_separator ++ property_name else property_name
        let property_stats := lookupA acc.stats property_path
        -- conflict checks against `values_hashable` (skipped when `vh` is None
        -- or the empty dict, both falsy in Python)
        let vhHit : Option Bool :=
          match vh with
          | some l => if l.isEmpty then none else lookupA l property_name
          | none => none
        if vhHit == some true &&
            (match property_stats with
             | some d => d.truthy
             | none => false) then
          acc.invalidate property_path "hashable value for non-hashable field"
        else if vhHit == some false &&
            (match property_stats with
             | some d => d.isEmptyD
             | none => false) then
          acc.invalidate property_path "non-hashable value for hashable field"
        else
          let property_type : Option String :=
            match property_stats with
            | some d => if d.truthy then d.type else none
            | none => none
          if (match property_type with
              | some t => !t.isEmpty && !matchesType property_value t
              | none => false) &&
             !memA acc.invalid_properties property_path then
            acc.invalidate property_path "value changed the type"
          else if is_hashable property_value then
            match lookupA acc.stats property_path with
            | none => { acc with stats := setA acc.stats property_path {} }
            | some _ => acc
          else
            match property_value with
            | .vArr _ =>
              -- Python indexes `object_value[property_name]` again here
              (match lookupA kvs property_name with
               | some (.vArr xs) => process_array fuel acc xs property_path
               | _ => acc)
            | .vObj _ =>
              (match lookupA kvs property_name with
               | some (.vObj okvs) => process_object fuel acc okvs property_path
               | _ => acc)
            | _ => acc  -- unreachable: scalars are hashable
      ) sc

/-- `_process_array` from the source. -/
def process_array : Nat → StatsCollector → List JValue → String → StatsCollector
  | 0, sc, _, _ => sc
  | fuel + 1, sc, xs, pre =>
    -- skip empty arrays or invalid columns that would be stringified
    -- (Python reads `self._stats[prefix]` here and would raise KeyError
    -- for an invalid prefix with no stats entry)
    if xs.isEmpty ||
        (memA sc.invalid_properties pre &&
          (match lookupA sc.stats pre with
           | some d => d.isEmptyD
           | none => false)) then sc
    else
      -- mixed-kind detection over element types: dicts, then lists/tuples
      let mixedWith (p : JValue → Bool) : Bool := xs.any p && xs.any (fun x => !p x)
      let sc :=
        if mixedWith isObj || mixedWith is_list then
          { sc with
            invalid_properties := setA sc.invalid_properties pre "mixed types in an array" }
        else sc
      let sc :=
        match lookupA sc.stats pre with
        | none =>
          { sc with
            stats := setA sc.stats pre { count := some 0, properties := some [], type := some "array" } }
        | some _ => sc
      match xs.head? with
      | none => sc  -- unreachable: xs nonempty
      | some x0 =>
        if is_hashable x0 || memA sc.invalid_properties pre then
          -- count update; Python reads `self._stats[prefix]["count"]` and
          -- would raise KeyError when the descriptor has no count
          match lookupA sc.stats pre with
          | some d =>
            (match d.count with
             | some c => { sc with stats := setA sc.stats pre { d with count := some (max c xs.length) } }
             | none => sc)
          | none => sc
        else if is_list x0 then
          (xs.enum.foldl (fun acc el =>
            match el.2 with
            | .vArr ys => process_array fuel acc ys (pre ++ "[" ++ toString el.1 ++ "]")
            | _ => acc  -- unreachable: mixed list/non-list was marked invalid above
            ) sc)
        else
          process_base_array fuel sc xs pre

/-- `_process_base_array` from the source (elements are objects). -/
def process_base_array : Nat → StatsCollector → List JValue → String → StatsCollector
  | 0, sc, _, _ => sc
  | fuel + 1, sc, xs, pre =>
    let step : (StatsCollector × Bool) → (Nat × JValue) → (StatsCollector × Bool) :=
      fun accp el =>
        match el.2 with
        | .vObj ekvs =>
          ekvs.foldl (fun accp2 kv =>
            let acc := accp2.1
            let property_path :=
              pre ++ "[" ++ toString el.1 ++ "]" ++ acc.cut_separator ++ kv.1
            if memA acc.invalid_properties property_path then accp2
            else if is_hashable kv.2 then
              (acc.process_hashable_value kv.1 kv.2 pre, true)
            else
              match kv.2 with
              | .vArr ys => (process_array fuel acc ys property_path, accp2.2)
              | .vObj okvs => (process_object fuel acc okvs property_path, accp2.2)
              | _ => accp2  -- unreachable: scalars are hashable
            ) accp
        | _ => accp  -- unreachable: mixed dict/non-dict was marked invalid upstream
    let res := xs.enum.foldl step (sc, false)
    let sc := res.1
    let has_hashable_values := res.2
    -- count makes sense only for arrays with properties and hashable values
    match lookupA sc.stats pre with
    | some d =>
      if (match d.properties with
          | some props => !props.isEmpty
          | none => false) || has_hashable_values then
        match d.count with
        | some c =>
          if c < xs.length then
            { sc with stats := setA sc.stats pre { d with count := some xs.length } }
          else sc
        | none => sc  -- Python: KeyError
      else sc
    | none => sc  -- unreachable from `_process_array`

end

end StatsCollector

/- Size of a value (node count), used to compute sufficient fuel. -/
mutual
def jsize : JValue → Nat
  | .vNull => 1
  | .vBool _ => 1
  | .vInt _ => 1
  | .vStr _ => 1
  | .vArr xs => 1 + jsizeList xs
  | .vObj kvs => 1 + jsizeObj kvs

def jsizeList : List JValue → Nat
  | [] => 0
  | x :: rest => jsize x + jsizeList rest

def jsizeObj : List (String × JValue) → Nat
  | [] => 0
  | kv :: rest => jsize kv.2 + jsizeObj rest
end

namespace StatsCollector

/-- Fuel sufficient for the walk of one record: the recursion descends
along the value structure, with a bounded number of extra calls per
node (including the rebuild replay, which processes only scalar
values). -/
def fuelFor (kvs : List (String × JValue)) : Nat := 4 * jsizeObj kvs + 8

/-- `process_object` with enough fuel for its argument. -/
def process_object_run (sc : StatsCollector) (kvs : List (String × JValue))
    (pre : String) : StatsCollector :=
  process_object (fuelFor kvs) sc kvs pre

/-- `process_items` from the source: top-level batch contract checks,
then one `process_object` per record.  The `TypeError`s raised there are
the `.error` results. -/
def process_items (sc : StatsCollector) (items : JValue) :
    Except PyErr StatsCollector :=
  -- `if not is_list(items): raise TypeError(...)`
  if !is_list items then
    .error (.typeError "Initial items data must be array.")
  else
    match items with
    | .vArr [] => .ok sc  -- logs "No items provided." and returns unchanged
    | .vArr (x0 :: rest) =>
      -- `len(set([type(x) for x in items])) > 1`
      if rest.any (fun x => pyTypeTag x ≠ pyTypeTag x0) then
        .error (.typeError "All elements of the array must be of the same type.")
      else
        match x0 with
        | .vObj _ =>
          .ok ((x0 :: rest).foldl (fun acc it =>
            match it with
            | .vObj kvs => acc.process_object_run kvs ""
            | _ => acc  -- unreachable: the batch is homogeneous
            ) sc)
        | .vArr _ => .error (.typeError "Items must be dicts to be supported.")
        | _ => .error (.typeError "Unsupported item type.")
    | _ => .error (.typeError "Initial items data must be array.")  -- unreachable

/-- `_filter_stats` from the source: drop entries whose `count` key is
present and equal to 0. -/
def filter_stats (stats : List (String × Header)) : List (String × Header) :=
  stats.filter (fun kv => !(kv.2.count == some 0))

/-- The value of the read-only `stats` property accessor. -/
structure StatsOutput where
  stats : List (String × Header)
  invalid_properties : List (String × String)
deriving Repr

/-- The `stats` property of `StatsCollector` (named `stats_output` here
because the state field already uses the name): returns the filtered
stats plus the invalid-property map, leaving the collector untouched. -/
def stats_output (sc : StatsCollector) : StatsOutput :=
  { stats := filter_stats sc.stats, invalid_properties := sc.invalid_properties }

end StatsCollector


/-! ### The scalpl `Cut` path lookup

`flattering` indexes records through `scalpl.Cut`, an external
dependency (not part of the repository): `Cut(item, sep).get(path,
default)` splits `path` on the separator, resolves `name[i][j]` chunks
as a dict lookup followed by integer indexing, returns `default` on
`KeyError`/`IndexError`, and lets `TypeError` (indexing a non-container)
propagate.  Modelled here from its documented behaviour. -/

/-- One resolution step of a path: a dict key or an integer index. -/
inductive PathStep where
  | key (k : String)
  | idx (n : Nat)
deriving Repr

/- Parse the bracket-index suffix of a chunk: a sequence of `[digits]`
groups.  Returns `none` when malformed. -/
mutual
def parseBrackets : List Char → Option (List Nat)
  | [] => some []
  | '[' :: rest => parseIdx rest 0 false
  | _ => none

def parseIdx : List Char → Nat → Bool → Option (List Nat)
  | [], _, _ => none
  | c :: rest, acc, seen =>
    if c.isDigit then parseIdx rest (10 * acc + (c.toNat - 48)) true
    else if c == ']' then
      (if seen then (parseBrackets rest).map (fun ns => acc :: ns) else none)
    else none
end

/-- Parse one separator-delimited chunk of a path into steps: the name
part (up to the first bracket) then the indexes.  A chunk with a
malformed bracket part is treated as a plain key. -/
def parseChunk (chunk : String) : List PathStep :=
  let cs := chunk.toList
  let nm := cs.takeWhile (fun c => c ≠ '[')
  match parseBrackets (cs.drop nm.length) with
  | some ns =>
    (if nm.isEmpty then [] else [PathStep.key (String.mk nm)]) ++ ns.map PathStep.idx
  | none => [PathStep.key chunk]

/-- Split a path into resolution steps. -/
def cutSteps (sep path : String) : List PathStep :=
  ((pySplit path sep).map parseChunk).flatten

/-- Result of a raw lookup: found value, missing
(`KeyError`/`IndexError`, caught by `Cut.get`), or `TypeError`
(propagates). -/
inductive Look where
  | found (v : JValue)
  | missing
  | typeErr
deriving Repr

def lookGo : JValue → List PathStep → Look
  | v, [] => .found v
  | v, PathStep.key k :: rest =>
    (match v with
     | .vObj kvs =>
       match lookupA kvs k with
       | some v2 => lookGo v2 rest
       | none => .missing
     | _ => .typeErr)
  | v, PathStep.idx i :: rest =>
    (match v with
     | .vArr xs =>
       (match xs.get? i with
        | some v2 => lookGo v2 rest
        | none => .missing)
     | .vObj _ => .missing  -- dict[int] on string-keyed dicts: KeyError
     | .vStr sv =>
       -- Python string indexing returns a one-character string
       (match sv.toList.get? i with
        | some c => lookGo (.vStr (String.singleton c)) rest
        | none => .missing)
     | _ => .typeErr)

/-- `Cut(item, sep=sep)` lookup of a path inside a record. -/
def cutLook (item : List (String × JValue)) (sep path : String) : Look :=
  lookGo (.vObj item) (cutSteps sep path)


/-! ### Exporter -/

/-- `FieldOption` from the source.  `named`/`grouped` are `Option Bool`
(absent key vs. stored boolean; the source's `isinstance(..., bool)`
check corresponds to presence), `name` is an optional string, and
`grouped_separators` maps header paths to separator strings. -/
structure FieldOption where
  name : Option String := none
  named : Option Bool := none
  grouped : Option Bool := none
  grouped_separators : List (String × String) := []
deriving Repr

namespace FieldOption

/-- Python truthiness of `option.get("named", False)`. -/
def namedT (o : FieldOption) : Bool := o.named.getD false

/-- Python truthiness of `option.get("grouped", False)`. -/
def groupedT (o : FieldOption) : Bool := o.grouped.getD false

end FieldOption

/-- The `Exporter` state (post-construction). -/
structure Exporter where
  stats : List (String × Header)
  invalid_properties : List (String × String)
  stringify_invalid : Bool := true
  field_options : List (String × FieldOption) := []
  array_limits : List (String × Nat) := []
  headers_renaming : List (String × String) := []
  headers_order : List String := []
  headers_filters : List String := []
  grouped_separator : String := "\n"
  cut_separator : String := "->"
  capitalize_headers : Bool := false
  headers : List String := []
deriving Repr

namespace Exporter

/-- Characters allowed inside custom grouped separators. -/
def allowed_separators : List Char := [';', ',', '\n', '>', ' ']

/-- The per-option acceptance test of `_validate_field_options` (the
source's loop body `continue`s on the first failing check and otherwise
copies the option over). -/
def keep_field_option (stats : List (String × Header))
    (property_name : String) (o : FieldOption) : Bool :=
  -- the field must exist in the collected stats
  if !memA stats property_name then false
  -- must be `named` or `grouped` or both
  else if !o.namedT && !o.groupedT then false
  -- `named`/`grouped` must be stored booleans
  else if o.named.isNone || o.grouped.isNone then false
  -- named options must carry a (truthy) `name`
  else if o.namedT && (o.name.getD "").isEmpty then false
  -- custom grouped separators must use only allowed characters
  else if o.grouped_separators.any
      (fun kv => !kv.2.toList.all (fun c => allowed_separators.contains c)) then false
  else
    match lookupA stats property_name with
    | none => false  -- unreachable: membership checked above
    | some property_stats =>
      -- `if not property_stats: continue` (empty descriptor: silent drop)
      if !property_stats.truthy then false
      else if o.namedT then
        match property_stats.properties with
        | none => false  -- not an array/object of scalar elements
        | some props =>
          if props.isEmpty then false
          else
            match lookupA props (o.name.getD "") with
            | none => false  -- name property absent
            | some pr =>
              if !o.groupedT then
                -- named, not grouped: reject rate-limited name property
                !pr.limited
              else
                -- named AND grouped: the limited flag is NOT checked;
                -- instead the path must be array-shaped (truthy count)
                match property_stats.count with
                | some c => !(c == 0)
                | none => false
      else true

/-- `_validate_field_options` from the source: drop every option that
cannot be applied, keeping the rest in order. -/
def validate_field_options (stats : List (String × Header))
    (opts : List (String × FieldOption)) : List (String × FieldOption) :=
  opts.filter (fun po => keep_field_option stats po.1 po.2)

/-- `_validate_headers_order`: keep only string entries. -/
def validate_headers_order (order : List JValue) : List String :=
  (order.filterMap (fun h => match h with | .vStr hstr => some hstr | _ => none))

/-- `_validate_headers_filters`: keep only string entries. -/
def validate_headers_filters (filters : List JValue) : List String :=
  (filters.filterMap (fun h => match h with | .vStr hstr => some hstr | _ => none))

/-- `_limit_field_elements` from the source: clamp counts per
`array_limits` and drop stats entries under a filtered index. -/
def limit_field_elements (e : Exporter) : Exporter :=
  let res := e.array_limits.foldl (fun (acc : List String × List (String × Header)) kl =>
    match lookupA acc.2 kl.1 with
    | none => acc
    | some d =>
      match d.count with
      | none => acc  -- `if not count: continue`
      | some c =>
        if c == 0 then acc
        else
          let fs := acc.1 ++ (List.range' kl.2 (c - kl.2)).map
            (fun i => kl.1 ++ "[" ++ toString i ++ "]")
          let sts := if c > kl.2 then setA acc.2 kl.1 { d with count := some kl.2 } else acc.2
          (fs, sts)) ([], e.stats)
  let limited_stats := res.2.filter (fun kv => !(res.1.any (fun k => pyStartsWith k kv.1)))
  { e with stats := limited_stats }

/-- The `expand` helper of `_convert_stats_to_headers`.  The
`named`-without-`grouped` branch raises `NotImplementedError` when the
name property was limited, and indexing `properties[name]` on a missing
key raises; these are `.error` results. -/
def expand (sep field : String) (meta : Header) (field_option : FieldOption) :
    Except PyErr (List String) :=
  let cnt := meta.count
  let properties := meta.properties.getD []
  if cnt == some 0 then .ok []  -- no content at all
  else
    let named := field_option.namedT
    let grouped := field_option.groupedT
    if named && grouped then .ok [field]
    else if named && !grouped then
      match lookupA properties (field_option.name.getD "") with
      | none => .error (.typeError "cannot index properties with the name")
      | some named_prop =>
        if named_prop.limited then .error .notImplementedError
        else
          .ok ((named_prop.values.map (fun v =>
            properties.filterMap (fun kv =>
              if kv.1 = field_option.name.getD "" then none
              else some (field ++ sep ++ pyStr v ++ sep ++ kv.1)))).flatten)
    else if !named && grouped then
      if meta.type == some "array" then
        if !properties.isEmpty then
          .ok (properties.map (fun kv => field ++ sep ++ kv.1))
        else .ok [field]
      else .ok [field]
    else
      -- regular case: expand array indices, then cross with properties
      let hs := match cnt with
        | some c => (List.range c).map (fun i => field ++ "[" ++ toString i ++ "]")
        | none => [field]
      if !properties.isEmpty then
        .ok ((hs.map (fun f => properties.map (fun kv => f ++ sep ++ kv.1))).flatten)
      else .ok hs

/-- `_convert_stats_to_headers` from the source. -/
def convert_stats_to_headers (e : Exporter) (stats : List (String × Header))
    (sep : String) (field_options : List (String × FieldOption)) :
    Except PyErr (List String) :=
  stats.foldl (fun acc kv =>
    match acc with
    | .error err => .error err
    | .ok hs =>
      if !e.stringify_invalid && memA e.invalid_properties kv.1 then .ok hs
      else
        match expand sep kv.1 kv.2 ((lookupA field_options kv.1).getD {}) with
        | .ok new => .ok (hs ++ new)
        | .error err => .error err) (.ok [])

/-- `re.match` as used by `_filter_headers`, modelled for literal
(regex-free) patterns: an anchored prefix match.  No claim exercises a
non-literal filter pattern. -/
def reMatchLit (pattern s : String) : Bool := pyStartsWith pattern s

/-- `_filter_headers` from the source: drop headers matched by any
filter statement. -/
def filter_headers (e : Exporter) : Exporter :=
  if e.headers_filters.isEmpty then e
  else
    let filtered := e.headers.filter (fun h =>
      e.headers_filters.any (fun ft => reMatchLit ft h))
    { e with headers := e.headers.filter (fun h => !filtered.contains h) }

/-- `_sort_headers` from the source: pull headers named in
`headers_order` to the front (in that order), keep the rest in natural
order. -/
def sort_headers (e : Exporter) : Exporter :=
  if e.headers_order.isEmpty then e
  else
    let res := e.headers_order.foldl
      (fun (acc : List String × List String) head =>
        if acc.2.contains head then (acc.1 ++ [head], acc.2.erase head) else acc)
      ([], e.headers)
    { e with headers := res.1 ++ res.2 }

/-- `_prepare_for_export` from the source: memoized header computation.
Returns early once headers are non-empty; otherwise applies array
limits, expands stats into headers, filters and sorts them. -/
def prepare_for_export (e : Exporter) : Except PyErr Exporter :=
  if !e.headers.isEmpty then .ok e
  else
    let e1 := limit_field_elements e
    match convert_stats_to_headers e1 e1.stats e1.cut_separator e1.field_options with
    | .error err => .error err
    | .ok hs => .ok (sort_headers (filter_headers { e1 with headers := hs }))

/-- Exporter construction (`attrs` init followed by
`__attrs_post_init__`): validates field options, header order and
filters, then prepares headers eagerly.  The `headers_renaming`
validator always passes here because renamings are typed as string
pairs. -/
def construct (stats : List (String × Header)) (invalid : List (String × String))
    (stringify_invalid : Bool) (field_options : List (String × FieldOption))
    (array_limits : List (String × Nat)) (headers_renaming : List (String × String))
    (headers_order : List JValue) (headers_filters : List JValue)
    (grouped_separator cut_sep : String) (capitalize_headers : Bool) :
    Except PyErr Exporter :=
  let e : Exporter :=
    { stats := stats, invalid_properties := invalid,
      stringify_invalid := stringify_invalid,
      field_options := validate_field_options stats field_options,
      array_limits := array_limits, headers_renaming := headers_renaming,
      headers_order := validate_headers_order headers_order,
      headers_filters := validate_headers_filters headers_filters,
      grouped_separator := grouped_separator, cut_separator := cut_sep,
      capitalize_headers := capitalize_headers, headers := [] }
  prepare_for_export e

/-- `Exporter.construct` with the source's default configuration. -/
def constructDefault (stats : List (String × Header)) (invalid : List (String × String))
    (field_options : List (String × FieldOption)) : Except PyErr Exporter :=
  construct stats invalid true field_options [] [] [] [] "\n" "->" false

/-! ### Row export -/

/-- `_escape_grouped_data` from the source: falsy values are returned
unchanged (not stringified!); otherwise the value is stringified and
occurrences of the separator are backslash-escaped. -/
def escape_grouped_data (v : JValue) (sep : String) : JValue :=
  if pyFalsy v then v
  else
    let esc := if sep == "\n" then "\\n" else "\\" ++ sep
    .vStr (pyReplace (pyStr v) sep esc)

/-- `separator.join([_escape_grouped_data(x, separator) for x in xs])`:
Python `str.join` raises `TypeError` when an element is not a string
(e.g. a falsy non-string that `_escape_grouped_data` passed through). -/
def joinEscaped (sep : String) (xs : List JValue) : Except PyErr JValue :=
  let esc := xs.map (fun x => escape_grouped_data x sep)
  if esc.all (fun x => match x with | .vStr _ => true | _ => false) then
    .ok (.vStr (String.intercalate sep (esc.map pyStr)))
  else .error (.typeError "sequence item: expected str instance")

/-- Python iteration (`for element in value`): lists yield elements,
dicts yield their keys, strings their characters; other values raise
`TypeError`. -/
def pyIter : JValue → Except PyErr (List JValue)
  | .vArr xs => .ok xs
  | .vObj kvs => .ok (kvs.map (fun kv => JValue.vStr kv.1))
  | .vStr s => .ok (s.toList.map (fun c => JValue.vStr (String.singleton c)))
  | _ => .error (.typeError "object is not iterable")

/-- `_export_grouped_field` from the source. -/
def export_grouped_field (e : Exporter) (item : List (String × JValue))
    (main_header : String) (child_headers : List String) (sep : String) :
    Except PyErr JValue :=
  if child_headers.isEmpty then
    match cutLook item e.cut_separator main_header with
    | .typeErr => .error (.typeError "unsubscriptable object in path")
    | .missing => .ok (.vStr "")  -- `get` default None → ""
    | .found v =>
      match v with
      | .vNull => .ok (.vStr "")
      | .vArr xs => joinEscaped sep xs
      | .vObj kvs =>
        -- dict: join "key: value" pairs (f-strings, hence always strings)
        .ok (.vStr (String.intercalate sep (kvs.map (fun kv =>
          pyStr (escape_grouped_data (.vStr kv.1) sep) ++ ": " ++
            pyStr (escape_grouped_data kv.2 sep)))))
      | w => .ok w  -- hashable: returned raw
  else
    match cutLook item e.cut_separator main_header with
    | .typeErr => .error (.typeError "unsubscriptable object in path")
    | .missing => .ok (.vStr "")  -- `get` default [] → empty join
    | .found v =>
      match pyIter v with
      | .error err => .error err
      | .ok elems =>
        let col := elems.foldl (fun acc el =>
          match acc with
          | .error err => .error err
          | .ok vs =>
            match el with
            | .vObj ekvs =>
              (match child_headers.head? with
               | none => .error (.indexError "list index out of range")
               | some c0 =>
                 match lookupA ekvs c0 with
                 | some (.vNull) | none => .ok (vs ++ [JValue.vStr ""])
                 | some w => .ok (vs ++ [w]))
            | _ => .error (.attributeError "element has no attribute get")) ((.ok []) : Except PyErr (List JValue))
        match col with
        | .error err => .error err
        | .ok vs => joinEscaped sep vs

/-- `_export_grouped_and_named_field` from the source. -/
def export_grouped_and_named_field (e : Exporter) (item : List (String × JValue))
    (main_header : String) (sep : String) : Except PyErr JValue :=
  let name := ((lookupA e.field_options main_header).getD {}).name.getD ""
  match cutLook item e.cut_separator main_header with
  | .typeErr => .error (.typeError "unsubscriptable object in path")
  | .missing => .ok (.vStr "")  -- `get` default [] → empty join
  | .found v =>
    match pyIter v with
    | .error err => .error err
    | .ok elems =>
      let vals := elems.foldl (fun acc el =>
        match acc with
        | .error err => .error err
        | .ok vs =>
          match el with
          | .vObj ekvs =>
            let element_name := (lookupA ekvs name).getD (.vStr "")
            let element_values := ekvs.filter (fun kv => kv.1 ≠ name)
            -- properties recorded for the field, except the name property
            let properties_stats : List (String × Property) :=
              (match lookupA e.stats main_header with
               | some d => (d.properties.getD []).filter (fun kv => kv.1 ≠ name)
               | none => [])
            if properties_stats.length > 1 then
              let element_str := String.intercalate sep
                (element_values.map (fun kv => kv.1 ++ ": " ++ pyStr kv.2))
              .ok (vs ++ [JValue.vStr ("- " ++ pyStr element_name ++ sep ++ element_str)])
            else
              .ok (vs ++ [JValue.vStr (pyStr element_name ++ ": " ++
                String.intercalate "," (element_values.map (fun kv => pyStr kv.2)))])
          | _ => .error (.attributeError "element has no attribute get")) ((.ok []) : Except PyErr (List JValue))
      match vals with
      | .error err => .error err
      | .ok vs => joinEscaped sep vs

/-- `_export_named_field` from the source.  Raises `ValueError` when the
value at the option path is neither a list nor a dict (e.g. a scalar or
`None`, which `Cut.get` returns as-is rather than the `[]` default). -/
def export_named_field (e : Exporter) (item : List (String × JValue))
    (main_header : String) (child_headers : List String) : Except PyErr JValue :=
  let name := ((lookupA e.field_options main_header).getD {}).name.getD ""
  match cutLook item e.cut_separator main_header with
  | .typeErr => .error (.typeError "unsubscriptable object in path")
  | .missing => .ok (.vStr "")  -- `get` default [] → empty scan
  | .found v =>
    match v with
    | .vArr xs =>
      let scan := xs.foldl (fun acc el =>
        match acc with
        | .error err => .error err
        | .ok (some r) => .ok (some r)
        | .ok none =>
          match el with
          | .vObj ekvs =>
            (match child_headers.head? with
             | none => .error (.indexError "list index out of range")
             | some c0 =>
               let matched := match lookupA ekvs name with
                 | some (.vStr t) => t == c0
                 | _ => false
               if matched then
                 match child_headers.get? 1 with
                 | none => .error (.indexError "list index out of range")
                 | some c1 => .ok (some ((lookupA ekvs c1).getD (.vStr "")))
               else .ok none)
          | _ => .error (.attributeError "element has no attribute get")) ((.ok none) : Except PyErr (Option JValue))
      (match scan with
       | .error err => .error err
       | .ok (some r) => .ok r
       | .ok none => .ok (.vStr ""))
    | .vObj kvs =>
      let scan := kvs.foldl (fun acc kv =>
        match acc with
        | .error err => .error err
        | .ok (some r) => .ok (some r)
        | .ok none =>
          match child_headers.get? 1 with
          | none => .error (.indexError "list index out of range")
          | some c1 => if kv.1 == c1 then .ok (some kv.2) else .ok none) ((.ok none) : Except PyErr (Option JValue))
      (match scan with
       | .error err => .error err
       | .ok (some r) => .ok r
       | .ok none => .ok (.vStr ""))
    | _ => .error (.valueError "Unexpected value type for named field.")

/-- `_export_field_with_options` from the source. -/
def export_field_with_options (e : Exporter) (item : List (String × JValue))
    (header main_header : String) (child_headers : List String) :
    Except PyErr JValue :=
  let o := (lookupA e.field_options main_header).getD {}
  if o.groupedT then
    -- custom separator, falling back on falsy (`or`) to the default
    let sep :=
      match lookupA o.grouped_separators header with
      | some sv => if sv.isEmpty then e.grouped_separator else sv
      | none => e.grouped_separator
    if !o.namedT then export_grouped_field e item main_header child_headers sep
    else export_grouped_and_named_field e item main_header sep
  else export_named_field e item main_header child_headers

/-- The search for the shallowest configured FieldOption prefix of a
split header path (the `main_header` / `child_headers` loop of
`export_item_as_row`); deeper matches are only logged and ignored. -/
def main_option (e : Exporter) (header_path : List String) :
    Option (String × List String) :=
  (List.range header_path.length).foldl (fun acc i =>
    match acc with
    | some _ => acc
    | none =>
      let option_path := String.intercalate e.cut_separator (header_path.take (i + 1))
      if memA e.field_options option_path then
        some (option_path, header_path.drop (i + 1))
      else none) none

/-- One iteration of the header loop of `export_item_as_row`: the value
appended to the row for a single header (or the exception raised
there). -/
def export_cell (e : Exporter) (item : List (String × JValue)) (header : String) :
    Except PyErr JValue :=
  -- stringify invalid data (this branch is outside the try/except, so a
  -- TypeError from the lookup propagates)
  if e.stringify_invalid && memA e.invalid_properties header then
    match cutLook item e.cut_separator header with
    | .typeErr => .error (.typeError "unsubscriptable object in path")
    | .missing => .ok (.vStr "")  -- str("")
    | .found v => .ok (.vStr (pyStr v))  -- str(value), also for None
  else
    let header_path := pySplit header e.cut_separator
    match main_option e header_path with
    | some mh => export_field_with_options e item header mh.1 mh.2
    | none =>
      -- try: value = item_data.get(header, ""); append(str(value) if not None)
      -- except TypeError: append("")
      match cutLook item e.cut_separator header with
      | .typeErr => .ok (.vStr "")
      | .missing => .ok (.vStr "")
      | .found v =>
        match v with
        | .vNull => .ok (.vStr "")
        | w => .ok (.vStr (pyStr w))

/-- The header loop of `export_item_as_row`: cells are produced in
header order, and the first exception aborts the row. -/
def export_cells (e : Exporter) (item : List (String × JValue)) :
    List String → Except PyErr (List JValue)
  | [] => .ok []
  | h :: rest =>
    match export_cell e item h with
    | .error err => .error err
    | .ok v =>
      match export_cells e item rest with
      | .error err => .error err
      | .ok vs => .ok (v :: vs)

/-- `export_item_as_row` from the source: one cell per prepared header,
in order. -/
def export_item_as_row (e : Exporter) (item : List (String × JValue)) :
    Except PyErr (List JValue) :=
  export_cells e item e.headers

end Exporter

end Flat

/-! ## Claim theorems -/

namespace Flat

open JValue StatsCollector Exporter

/-- A collector with the source's default configuration. -/
def scDefault : StatsCollector := {}

/-! Fixtures: the records of the spec's scenarios, run through the full
pipeline (stats collection, then exporter construction). -/

/-- Scenario-1 record: a scalar-valued object field. -/
def item1 : List (String × JValue) :=
  [("c", vObj [("name", vStr "color"), ("value", vStr "green")])]

def out1 : StatsOutput :=
  ((process_items scDefault (vArr [vObj item1])).toOption.getD scDefault).stats_output

def e1ex : Except PyErr Exporter := constructDefault out1.stats out1.invalid_properties []

/-- The scenario-1 exporter itself (construction succeeds; the fallback
is never used). -/
def e1W : Exporter :=
  match e1ex with
  | .ok e => e
  | .error _ => { stats := [], invalid_properties := [] }

/-- Scenario-3 record: an array of name/value objects. -/
def item3 : List (String × JValue) :=
  [("c", vArr [vObj [("name", vStr "color"), ("value", vStr "green")],
               vObj [("name", vStr "size"), ("value", vStr "XL")]])]

def out3 : StatsOutput :=
  ((process_items scDefault (vArr [vObj item3])).toOption.getD scDefault).stats_output

/-- The scenario-3 field option: `grouped=True, named=True, name="name"`. -/
def opt3 : FieldOption := { name := some "name", named := some true, grouped := some true }

/-- Scenario-3 exporter: field option `grouped=True, named=True,
name="name"` on `c`. -/
def e3ex : Except PyErr Exporter :=
  constructDefault out3.stats out3.invalid_properties [("c", opt3)]

/-- C7: for the single item
`{"c": [{"name": "color", "value": "green"}, {"name": "size", "value": "XL"}]}`
with field option `c = {grouped: true, named: true, name: "name"}`, the
prepared header list is exactly `["c"]` and the exported row is exactly
`["color: green\nsize: XL"]` (name/value pairs joined by the default
newline separator). -/
theorem grouped_named_scenario :
    e3ex.map (fun e => e.headers) = .ok ["c"] ∧
    e3ex.bind (fun e => export_item_as_row e item3) =
      .ok [JValue.vStr "color: green\nsize: XL"] :=
  ⟨rfl, rfl⟩

/-- First C10-counterexample record: a mixed dict/scalar array at `a`,
which `_process_array` marks invalid and then counts anyway (the
"hashable or invalid" branch). -/
def x10r1 : List (String × JValue) := [("a", vArr [vObj [("x", vInt 1)], vInt 2])]

/-- Second record: a scalar array at the already-invalid path `a`. -/
def x10r2 : List (String × JValue) := [("a", vArr [vInt 1, vInt 2, vInt 3])]

/-- Collector state after the first record (computed by the embedded
collector; asserted in the theorem). -/
def x10st1 : StatsCollector :=
  { stats := [("a", { count := some 2, properties := some [], type := some "array" })],
    invalid_properties := [("a", "mixed types in an array")] }

/-- Collector state after both records. -/
def x10st2 : StatsCollector :=
  { stats := [("a", { count := some 3, properties := some [], type := some "array" })],
    invalid_properties := [("a", "mixed types in an array")] }

set_option maxHeartbeats 1000000 in
/-- C10 counterexample: a path once marked invalid CAN keep accumulating
descriptor data from later records.  The mixed-type array at `a` marks
the path invalid but `_process_array` still updates its count (line 176:
`is_hashable(array_value[0]) or prefix in self._invalid_properties`);
the next record, reaching `a` through the top-level walk (not through a
`process_object` call at the prefix itself), raises the count from 2 to
3 while `a` stays invalid. -/
theorem invalid_path_count_still_accumulates :
    process_items scDefault (vArr [vObj x10r1]) = .ok x10st1 ∧
    process_items scDefault (vArr [vObj x10r1, vObj x10r2]) = .ok x10st2 ∧
    x10st2 = x10st1.process_object_run x10r2 "" ∧
    memA x10st1.invalid_properties "a" = true ∧
    countAt x10st1 "a" = some 2 ∧
    countAt x10st2 "a" = some 3 :=
  ⟨rfl, rfl, rfl, rfl, rfl, rfl⟩

/-- C10 (amended): for a prefix recorded in `invalid_properties`, a
`process_object` call *at that prefix* is a no-op: it returns
immediately and the whole collector state — in particular both the
stats map and the invalid-properties map — is unchanged, at every fuel.
(This early return does not stop the path from accumulating descriptor
data when later records reach it through other entry points, e.g. the
count update of `_process_array` — see the counterexample.) -/
theorem process_object_invalid_prefix_noop (fuel : Nat) (sc : StatsCollector)
    (kvs : List (String × JValue)) (pre : String)
    (h : memA sc.invalid_properties pre = true) :
    process_object fuel sc kvs pre = sc := by
  cases fuel with
  | zero => rfl
  | succ f => simp [process_object, h]

/-- Concrete collector with an invalidated path, for the C10 witness. -/
def scInv : StatsCollector :=
  { stats := [("a", {})],
    invalid_properties := [("a", "value changed the type")] }

theorem process_object_invalid_prefix_noop_witness :
    memA scInv.invalid_properties "a" = true ∧
    process_object 5 scInv [("b", JValue.vInt 1)] "a" = scInv :=
  ⟨rfl, process_object_invalid_prefix_noop 5 scInv [("b", JValue.vInt 1)] "a" rfl⟩

/-- C9: the `stats` accessor is a pure read: it returns the filtered
copy of the internal stats map (exactly the entries whose `count` is not
the 0 sentinel) next to the unfiltered invalid map, the internal map
itself keeps the sentinel entries, and a later `process_object` at a
path whose stored count is 0 still routes through the degenerate
per-key branch (`_process_base_object`). -/
theorem stats_output_filters_and_routes (sc : StatsCollector)
    (p : String) (kvs : List (String × JValue)) (fuel : Nat)
    (hinv : memA sc.invalid_properties p = false)
    (hcnt : sc.countAt p = some 0) :
    ((sc.stats_output).stats = filter_stats sc.stats ∧
     (sc.stats_output).invalid_properties = sc.invalid_properties) ∧
    (∀ q d2, (q, d2) ∈ filter_stats sc.stats ↔ (q, d2) ∈ sc.stats ∧ d2.count ≠ some 0) ∧
    process_object (fuel + 1) sc kvs p =
      process_base_object fuel sc kvs p
        (some (kvs.map (fun kv => (kv.1, is_hashable kv.2)))) := by
  refine ⟨⟨rfl, rfl⟩, ?_, ?_⟩
  · intro q d2
    simp [filter_stats, List.mem_filter]
  · simp [process_object, hinv, hcnt]

/-- Concrete collector with a count-0 sentinel entry, for the C9
witness. -/
def scDeg : StatsCollector :=
  { stats := [("a", { count := some 0, type := some "object" })] }

theorem stats_output_filters_and_routes_witness :
    memA scDeg.invalid_properties "a" = false ∧
    scDeg.countAt "a" = some 0 ∧
    filter_stats scDeg.stats = [] ∧
    process_object 4 scDeg [("x", JValue.vInt 1)] "a" =
      process_base_object 3 scDeg [("x", JValue.vInt 1)] "a"
        (some ([("x", JValue.vInt 1)].map (fun kv => (kv.1, is_hashable kv.2)))) :=
  ⟨rfl, rfl, rfl,
    (stats_output_filters_and_routes scDeg "a" [("x", JValue.vInt 1)] 3 rfl rfl).2.2⟩

/-- C3: `process_items` raises `TypeError` exactly on a violated
top-level contract — a non-sequence batch, mixed top-level element
types, sequence elements, or other non-dict elements — every raised
error is a `TypeError`, and an empty batch returns with the collector
unchanged. -/
theorem process_items_typeerror_iff (sc : StatsCollector) (items : JValue) :
    ((∃ msg, process_items sc items = .error (.typeError msg)) ↔
      (match items with
       | .vArr [] => False
       | .vArr (x0 :: rest) =>
           (∃ x ∈ rest, pyTypeTag x ≠ pyTypeTag x0) ∨ isObj x0 = false
       | _ => True)) ∧
    (∀ err, process_items sc items = .error err → ∃ msg, err = .typeError msg) ∧
    process_items sc (JValue.vArr []) = .ok sc := by
  refine ⟨?_, ?_, rfl⟩
  · cases items with
    | vArr xs =>
      cases xs with
      | nil => simp [process_items, is_list]
      | cons x0 rest =>
        cases hmix : rest.any (fun x => pyTypeTag x ≠ pyTypeTag x0) with
        | true =>
          constructor
          · intro _
            left
            simpa using hmix
          · intro _
            have hprop : ∃ x ∈ rest, pyTypeTag x ≠ pyTypeTag x0 := by simpa using hmix
            exact ⟨"All elements of the array must be of the same type.",
              by simp [process_items, is_list, hprop]⟩
        | false =>
          have h2 : ¬ ∃ x ∈ rest, pyTypeTag x ≠ pyTypeTag x0 := by
            simpa using hmix
          cases x0 <;> simp [process_items, is_list, hmix, isObj, h2]
    | vNull => exact ⟨fun _ => trivial, fun _ =>
        ⟨"Initial items data must be array.", by simp [process_items, is_list]⟩⟩
    | vBool b => exact ⟨fun _ => trivial, fun _ =>
        ⟨"Initial items data must be array.", by simp [process_items, is_list]⟩⟩
    | vInt n => exact ⟨fun _ => trivial, fun _ =>
        ⟨"Initial items data must be array.", by simp [process_items, is_list]⟩⟩
    | vStr str => exact ⟨fun _ => trivial, fun _ =>
        ⟨"Initial items data must be array.", by simp [process_items, is_list]⟩⟩
    | vObj kvs => exact ⟨fun _ => trivial, fun _ =>
        ⟨"Initial items data must be array.", by simp [process_items, is_list]⟩⟩
  · intro err herr
    cases items with
    | vArr xs =>
      cases xs with
      | nil => simp [process_items, is_list] at herr
      | cons x0 rest =>
        cases hmix : rest.any (fun x => pyTypeTag x ≠ pyTypeTag x0) with
        | true =>
          have hprop : ∃ x ∈ rest, pyTypeTag x ≠ pyTypeTag x0 := by simpa using hmix
          simp [process_items, is_list, hprop] at herr
          first
          | exact ⟨"All elements of the array must be of the same type.", herr⟩
          | exact ⟨"All elements of the array must be of the same type.", herr.symm⟩
        | false =>
          have h2 : ¬ ∃ x ∈ rest, pyTypeTag x ≠ pyTypeTag x0 := by
            simpa using hmix
          cases x0 with
          | vObj kvs0 => simp [process_items, is_list, h2] at herr
          | vArr ys =>
            simp [process_items, is_list, h2] at herr
            first
            | exact ⟨"Items must be dicts to be supported.", herr⟩
            | exact ⟨"Items must be dicts to be supported.", herr.symm⟩
          | vNull =>
            simp [process_items, is_list, h2] at herr
            first
            | exact ⟨"Unsupported item type.", herr⟩
            | exact ⟨"Unsupported item type.", herr.symm⟩
          | vBool b =>
            simp [process_items, is_list, h2] at herr
            first
            | exact ⟨"Unsupported item type.", herr⟩
            | exact ⟨"Unsupported item type.", herr.symm⟩
          | vInt n =>
            simp [process_items, is_list, h2] at herr
            first
            | exact ⟨"Unsupported item type.", herr⟩
            | exact ⟨"Unsupported item type.", herr.symm⟩
          | vStr str =>
            simp [process_items, is_list, h2] at herr
            first
            | exact ⟨"Unsupported item type.", herr⟩
            | exact ⟨"Unsupported item type.", herr.symm⟩
    | vNull =>
      simp [process_items, is_list] at herr
      first
      | exact ⟨"Initial items data must be array.", herr⟩
      | exact ⟨"Initial items data must be array.", herr.symm⟩
    | vBool b =>
      simp [process_items, is_list] at herr
      first
      | exact ⟨"Initial items data must be array.", herr⟩
      | exact ⟨"Initial items data must be array.", herr.symm⟩
    | vInt n =>
      simp [process_items, is_list] at herr
      first
      | exact ⟨"Initial items data must be array.", herr⟩
      | exact ⟨"Initial items data must be array.", herr.symm⟩
    | vStr str =>
      simp [process_items, is_list] at herr
      first
      | exact ⟨"Initial items data must be array.", herr⟩
      | exact ⟨"Initial items data must be array.", herr.symm⟩
    | vObj kvs =>
      simp [process_items, is_list] at herr
      first
      | exact ⟨"Initial items data must be array.", herr⟩
      | exact ⟨"Initial items data must be array.", herr.symm⟩

/-- C5 counterexample: the exporter is already prepared (non-empty
memoized headers) immediately after construction, before any header
access or row export — the unprepared-to-prepared transition is eager
(`__attrs_post_init__` calls `_prepare_for_export`), not lazy as
claimed. -/
theorem headers_prepared_at_construction :
    e1ex.map (fun e => e.headers) = .ok ["c->name", "c->value"] := rfl

/-- C5 (amended): header preparation is idempotent via the memoization
early-return: whenever the prepared headers are non-empty, running
`_prepare_for_export` again returns the exporter completely unchanged
(so the exporter never re-enters the unprepared phase); the transition
itself happens eagerly, exactly once, during construction. -/
theorem prepare_for_export_early_return (e : Exporter) (h : e.headers ≠ []) :
    prepare_for_export e = .ok e := by
  have hne : e.headers.isEmpty = false := by
    simpa [List.isEmpty_iff] using h
  simp [prepare_for_export, hne]

theorem prepare_for_export_early_return_witness :
    e1W.headers = ["c->name", "c->value"] ∧
    prepare_for_export e1W = .ok e1W :=
  ⟨rfl, prepare_for_export_early_return e1W (by decide)⟩

/-- C6: FieldOption validation is asymmetric about the `limited` flag.
With the name property rate-limited (`pr.limited = true`): an option
with `named=True, grouped=False` is dropped, while an option with
`named=True, grouped=True` skips the limited check entirely and is kept
as long as the path's stats carry a non-zero count (array-shaped); a
`named=True, grouped=True` option whose target path's stats carry no
(non-zero) count — not array-shaped — is dropped even when its `name`
property exists; and in all cases validation is a filter, so the
remaining options survive unchanged and construction proceeds with
them. -/
theorem validate_field_options_limited_asymmetry
    (stats : List (String × Header)) (opts : List (String × FieldOption))
    (p nm : String) (oa ob : FieldOption) (d : Header)
    (props : List (String × Property)) (pr : Property)
    (pre1 rest1 pre2 rest2 : List (String × FieldOption))
    (hd : lookupA stats p = some d)
    (hdt : d.truthy = true)
    (hprops : d.properties = some props)
    (hne : props.isEmpty = false)
    (hpr : lookupA props nm = some pr)
    (hlim : pr.limited = true)
    (hoaN : oa.named = some true) (hoaG : oa.grouped = some false)
    (hoaname : oa.name = some nm) (hnm : nm.isEmpty = false)
    (hoasep : oa.grouped_separators = [])
    (hobN : ob.named = some true) (hobG : ob.grouped = some true)
    (hobname : ob.name = some nm)
    (hobsep : ob.grouped_separators = [])
    (c : Nat) (hc : d.count = some c) (hc0 : c ≠ 0)
    (p2 nm2 : String) (oc : FieldOption) (d2 : Header)
    (props2 : List (String × Property)) (pr2 : Property)
    (pre3 rest3 : List (String × FieldOption))
    (hd2 : lookupA stats p2 = some d2)
    (hdt2 : d2.truthy = true)
    (hprops2 : d2.properties = some props2)
    (hne2 : props2.isEmpty = false)
    (hpr2 : lookupA props2 nm2 = some pr2)
    (hocN : oc.named = some true) (hocG : oc.grouped = some true)
    (hocname : oc.name = some nm2) (hnm2 : nm2.isEmpty = false)
    (hocsep : oc.grouped_separators = [])
    (hc2 : d2.count = none ∨ d2.count = some 0) :
    validate_field_options stats (pre1 ++ (p, oa) :: rest1) =
      validate_field_options stats pre1 ++ validate_field_options stats rest1 ∧
    validate_field_options stats (pre2 ++ (p, ob) :: rest2) =
      validate_field_options stats pre2 ++ (p, ob) :: validate_field_options stats rest2 ∧
    (∀ q o2, (q, o2) ∈ validate_field_options stats opts → (q, o2) ∈ opts) ∧
    validate_field_options stats (pre3 ++ (p2, oc) :: rest3) =
      validate_field_options stats pre3 ++ validate_field_options stats rest3 := by
  have hmem : memA stats p = true := by simp [memA, hd]
  have hka : keep_field_option stats p oa = false := by
    simp [keep_field_option, hmem, hd, hdt, hprops, hpr, hlim, hoaN, hoaG,
      hoaname, hoasep, hnm, hne, FieldOption.namedT, FieldOption.groupedT]
  have hkb : keep_field_option stats p ob = true := by
    simp [keep_field_option, hmem, hd, hdt, hprops, hpr, hlim, hobN, hobG,
      hobname, hobsep, hnm, hne, hc, hc0, FieldOption.namedT, FieldOption.groupedT]
  have hmem2 : memA stats p2 = true := by simp [memA, hd2]
  have hkc : keep_field_option stats p2 oc = false := by
    rcases hc2 with h0 | h0 <;>
      simp [keep_field_option, hmem2, hd2, hdt2, hprops2, hpr2, hocN, hocG,
        hocname, hocsep, hnm2, hne2, h0, FieldOption.namedT, FieldOption.groupedT]
  refine ⟨?_, ?_, ?_, ?_⟩
  · simp [validate_field_options, List.filter_append, List.filter_cons, hka]
  · simp [validate_field_options, List.filter_append, List.filter_cons, hkb]
  · intro q o2 h
    exact (List.mem_filter.mp h).1
  · simp [validate_field_options, List.filter_append, List.filter_cons, hkc]

/-- Stats fixture for the C6 witness: an array-of-objects field `c`
whose `name` property hit the named-columns limit, plus a dict-shaped
field `d` (object descriptor, no count) with a `name` property. -/
def statsW6 : List (String × Header) :=
  [("c", { count := some 2,
           properties := some [("name", { values := [], limited := true }),
                               ("value", { values := [vStr "green"], limited := false })],
           type := some "array" }),
   ("d", { properties := some [("name", { values := [vStr "size"], limited := false })],
           type := some "object" })]

def oaW6 : FieldOption := { name := some "name", named := some true, grouped := some false }

def obW6 : FieldOption := { name := some "name", named := some true, grouped := some true }

theorem validate_field_options_limited_asymmetry_witness :
    validate_field_options statsW6 ([] ++ ("c", oaW6) :: []) =
      validate_field_options statsW6 [] ++ validate_field_options statsW6 [] ∧
    validate_field_options statsW6 ([] ++ ("c", obW6) :: []) =
      validate_field_options statsW6 [] ++ ("c", obW6) :: validate_field_options statsW6 [] ∧
    (∀ q o2, (q, o2) ∈ validate_field_options statsW6 [("c", oaW6), ("c", obW6)] →
      (q, o2) ∈ [("c", oaW6), ("c", obW6)]) ∧
    validate_field_options statsW6 ([] ++ ("d", obW6) :: []) =
      validate_field_options statsW6 [] ++ validate_field_options statsW6 [] :=
  validate_field_options_limited_asymmetry statsW6 [("c", oaW6), ("c", obW6)]
    "c" "name" oaW6 obW6
    { count := some 2,
      properties := some [("name", { values := [], limited := true }),
                          ("value", { values := [vStr "green"], limited := false })],
      type := some "array" }
    [("name", { values := [], limited := true }),
     ("value", { values := [vStr "green"], limited := false })]
    { values := [], limited := true }
    [] [] [] []
    rfl rfl rfl rfl rfl rfl rfl rfl rfl rfl rfl rfl rfl rfl rfl
    2 rfl (by simp)
    "d" "name" obW6
    { properties := some [("name", { values := [vStr "size"], limited := false })],
      type := some "object" }
    [("name", { values := [vStr "size"], limited := false })]
    { values := [vStr "size"], limited := false }
    [] []
    rfl rfl rfl rfl rfl rfl rfl rfl rfl rfl (Or.inl rfl)

/-- Helper for C8: a successful `export_cells` run produces one cell per
header, in order. -/
theorem export_cells_aligns (e : Exporter) (item : List (String × JValue)) :
    ∀ (hs : List String) (row : List JValue),
      export_cells e item hs = .ok row →
      row.length = hs.length ∧
      ∀ i (hi : i < hs.length) (hr : i < row.length),
        export_cell e item (hs.get ⟨i, hi⟩) = .ok (row.get ⟨i, hr⟩) := by
  intro hs
  induction hs with
  | nil =>
    intro row h
    simp [export_cells] at h
    subst h
    exact ⟨rfl, fun i hi => absurd hi (by simp)⟩
  | cons hd tl ih =>
    intro row h
    cases hc : export_cell e item hd with
    | error err => simp [export_cells, hc] at h
    | ok v =>
      cases hrest : export_cells e item tl with
      | error err => simp [export_cells, hc, hrest] at h
      | ok vs =>
        simp [export_cells, hc, hrest] at h
        subst h
        obtain ⟨hlen, hidx⟩ := ih vs hrest
        refine ⟨by simp [hlen], ?_⟩
        intro i hi hr
        cases i with
        | zero => simpa using hc
        | succ j =>
          have hj : j < tl.length := by simpa using hi
          have hj2 : j < vs.length := by simpa using hr
          simpa using hidx j hj hj2

/-- C8: for every record, when `export_item_as_row` returns a row it has
exactly one entry per prepared header, cell `i` being the value the cell
computation produces for header `i` (all cells are `JValue`s, i.e.
stringified or directly stringifiable). -/
theorem export_row_aligns_with_headers (e : Exporter) (item : List (String × JValue))
    (row : List JValue) (h : export_item_as_row e item = .ok row) :
    row.length = e.headers.length ∧
    ∀ i (hi : i < e.headers.length) (hr : i < row.length),
      export_cell e item (e.headers.get ⟨i, hi⟩) = .ok (row.get ⟨i, hr⟩) :=
  export_cells_aligns e item e.headers row h

/-- The scenario-3 exporter itself, for witnesses. -/
def e3W : Exporter :=
  match e3ex with
  | .ok e => e
  | .error _ => { stats := [], invalid_properties := [] }

theorem export_row_aligns_with_headers_witness :
    export_item_as_row e3W item3 = .ok [JValue.vStr "color: green\nsize: XL"] ∧
    ([JValue.vStr "color: green\nsize: XL"] : List JValue).length = e3W.headers.length :=
  ⟨rfl, (export_row_aligns_with_headers e3W item3 [JValue.vStr "color: green\nsize: XL"] rfl).1⟩

/-- Scenario-3 stats with field option `named=True, grouped=False,
name="name"` on `c` (validated and kept: the name property is not
limited). -/
def e2ex : Except PyErr Exporter :=
  constructDefault out3.stats out3.invalid_properties
    [("c", { name := some "name", named := some true, grouped := some false })]

/-- C1 counterexample: `export_item_as_row` does NOT complete for every
record.  For the prepared exporter with a `named` FieldOption on `c`,
the record `{"c": None}` makes `_export_named_field` raise `ValueError`
(`Cut.get` returns the stored `None` rather than the `[]` default, and
`None` is neither a list nor a dict).  A `None` value at an
option-governed path therefore raises instead of yielding `""`. -/
theorem export_named_none_raises :
    e2ex.map (fun e => e.headers) = .ok ["c->color->value", "c->size->value"] ∧
    e2ex.bind (fun e => export_item_as_row e [("c", JValue.vNull)]) =
      .error (.valueError "Unexpected value type for named field.") :=
  ⟨rfl, rfl⟩

/-- Helper for C1: a successful option-prefix search returns a key of
`field_options`. -/
theorem main_option_mem (e : Exporter) (parts : List String)
    (mh : String) (child : List String)
    (h : main_option e parts = some (mh, child)) :
    memA e.field_options mh = true := by
  have step : ∀ (l : List Nat) (acc : Option (String × List String)),
      (∀ mh2 child2, acc = some (mh2, child2) → memA e.field_options mh2 = true) →
      ∀ mh2 child2,
        l.foldl (fun acc2 i =>
          match acc2 with
          | some _ => acc2
          | none =>
            let option_path := String.intercalate e.cut_separator (parts.take (i + 1))
            if memA e.field_options option_path then
              some (option_path, parts.drop (i + 1))
            else none) acc = some (mh2, child2) →
        memA e.field_options mh2 = true := by
    intro l
    induction l with
    | nil => intro acc hacc mh2 child2 heq; exact hacc mh2 child2 heq
    | cons i rest ih =>
      intro acc hacc mh2 child2 heq
      refine ih _ ?_ mh2 child2 heq
      intro mh3 child3 hstep
      cases acc with
      | some pr => exact hacc mh3 child3 hstep
      | none =>
        simp only at hstep
        by_cases hm : memA e.field_options
            (String.intercalate e.cut_separator (parts.take (i + 1))) = true
        · simp [hm] at hstep
          obtain ⟨h1, _⟩ := hstep
          exact h1 ▸ hm
        · simp [hm] at hstep
  exact step (List.range parts.length) none (by intro _ _ h2; cases h2) mh child h

/-- C1 (amended): headers whose path misses the record yield the empty
string and never raise — provided no FieldOption path is present in the
record with an ill-shaped value.  Precisely: (i) an option-governed cell
whose option path is absent from the record is `""`; (ii) a cell with no
applicable option (and not invalid-stringified) never raises, and yields
`""` both when the path is absent and when the stored value is `None`;
(iii) the whole row export completes when every option path is absent
from the record and no invalid-stringified header lookup raises
`TypeError`.  (With an option present, a `None`/scalar value at the
option path raises: see the counterexample.) -/
theorem export_lookup_miss_behaviour (e : Exporter) (item : List (String × JValue)) :
    (∀ h2 mh child, main_option e (pySplit h2 e.cut_separator) = some (mh, child) →
       ¬(e.stringify_invalid = true ∧ memA e.invalid_properties h2 = true) →
       cutLook item e.cut_separator mh = .missing →
       export_cell e item h2 = .ok (.vStr "")) ∧
    (∀ h2, main_option e (pySplit h2 e.cut_separator) = none →
       ¬(e.stringify_invalid = true ∧ memA e.invalid_properties h2 = true) →
       (∃ v, export_cell e item h2 = .ok v) ∧
       (cutLook item e.cut_separator h2 = .missing → export_cell e item h2 = .ok (.vStr "")) ∧
       (cutLook item e.cut_separator h2 = .found .vNull →
         export_cell e item h2 = .ok (.vStr ""))) ∧
    ((∀ p, memA e.field_options p = true → cutLook item e.cut_separator p = .missing) →
     (∀ h2, h2 ∈ e.headers → e.stringify_invalid = true →
        memA e.invalid_properties h2 = true →
        cutLook item e.cut_separator h2 ≠ .typeErr) →
     ∃ row, export_item_as_row e item = .ok row) := by
  have hbool : ∀ h2 : String,
      ¬(e.stringify_invalid = true ∧ memA e.invalid_properties h2 = true) →
      (e.stringify_invalid && memA e.invalid_properties h2) = false := by
    intro h2 hc
    cases hs : e.stringify_invalid with
    | false => rfl
    | true =>
      cases hm : memA e.invalid_properties h2 with
      | false => rfl
      | true => exact absurd ⟨hs, hm⟩ hc
  have part1 : ∀ h2 mh child,
      main_option e (pySplit h2 e.cut_separator) = some (mh, child) →
      ¬(e.stringify_invalid = true ∧ memA e.invalid_properties h2 = true) →
      cutLook item e.cut_separator mh = .missing →
      export_cell e item h2 = .ok (.vStr "") := by
    intro h2 mh child hmo hninv hmiss
    have hb := hbool h2 hninv
    rw [export_cell]
    simp only [hb, Bool.false_eq_true, if_false, hmo]
    rw [export_field_with_options]
    by_cases hg : ((lookupA e.field_options mh).getD {}).groupedT = true
    · by_cases hn : ((lookupA e.field_options mh).getD {}).namedT = true
      · simp only [hg, hn, if_true, Bool.not_true, Bool.false_eq_true, if_false]
        rw [export_grouped_and_named_field]
        simp [hmiss]
      · simp only [hg, if_true]
        have hn2 : ((lookupA e.field_options mh).getD {}).namedT = false := by
          simpa using hn
        simp only [hn2, Bool.not_false, if_true]
        rw [export_grouped_field]
        cases hch : child.isEmpty <;> simp [hch, hmiss]
    · have hg2 : ((lookupA e.field_options mh).getD {}).groupedT = false := by
        simpa using hg
      simp only [hg2, Bool.false_eq_true, if_false]
      rw [export_named_field]
      simp [hmiss]
  have part2 : ∀ h2, main_option e (pySplit h2 e.cut_separator) = none →
      ¬(e.stringify_invalid = true ∧ memA e.invalid_properties h2 = true) →
      (∃ v, export_cell e item h2 = .ok v) ∧
      (cutLook item e.cut_separator h2 = .missing → export_cell e item h2 = .ok (.vStr "")) ∧
      (cutLook item e.cut_separator h2 = .found .vNull →
        export_cell e item h2 = .ok (.vStr "")) := by
    intro h2 hmo hninv
    have hb := hbool h2 hninv
    rw [export_cell]
    simp only [hb, Bool.false_eq_true, if_false, hmo]
    refine ⟨?_, ?_, ?_⟩
    · cases hlk : cutLook item e.cut_separator h2 with
      | typeErr => exact ⟨.vStr "", by simp [hlk]⟩
      | missing => exact ⟨.vStr "", by simp [hlk]⟩
      | found v =>
        cases v with
        | vNull => exact ⟨JValue.vStr "", by simp [hlk]⟩
        | vBool b => exact ⟨JValue.vStr (pyStr (JValue.vBool b)), by simp [hlk]⟩
        | vInt n => exact ⟨JValue.vStr (pyStr (JValue.vInt n)), by simp [hlk]⟩
        | vStr t => exact ⟨JValue.vStr (pyStr (JValue.vStr t)), by simp [hlk]⟩
        | vArr xs => exact ⟨JValue.vStr (pyStr (JValue.vArr xs)), by simp [hlk]⟩
        | vObj kvs => exact ⟨JValue.vStr (pyStr (JValue.vObj kvs)), by simp [hlk]⟩
    · intro hmiss; simp [hmiss]
    · intro hnull; simp [hnull]
  refine ⟨part1, part2, ?_⟩
  intro hopts hinvs
  have cellok : ∀ h2, h2 ∈ e.headers → ∃ v, export_cell e item h2 = .ok v := by
    intro h2 hmem
    by_cases hib : (e.stringify_invalid && memA e.invalid_properties h2) = true
    · rw [export_cell]
      simp only [hib, if_true]
      have hnt := hinvs h2 hmem (by
          cases hs : e.stringify_invalid
          · rw [hs] at hib; simp at hib
          · rfl)
        (by cases hm : memA e.invalid_properties h2
            · rw [hm] at hib; simp at hib
            · rfl)
      cases hlk : cutLook item e.cut_separator h2 with
      | typeErr => exact absurd hlk hnt
      | missing => exact ⟨JValue.vStr "", by simp [hlk]⟩
      | found v => exact ⟨JValue.vStr (pyStr v), by simp [hlk]⟩
    · have hninv : ¬(e.stringify_invalid = true ∧ memA e.invalid_properties h2 = true) := by
        intro hcontra
        exact hib (by simp [hcontra.1, hcontra.2])
      cases hmo : main_option e (pySplit h2 e.cut_separator) with
      | some pr =>
        have hmiss := hopts pr.1 (main_option_mem e (pySplit h2 e.cut_separator) pr.1 pr.2 (by
          simpa using hmo))
        exact ⟨_, part1 h2 pr.1 pr.2 (by simpa using hmo) hninv hmiss⟩
      | none => exact (part2 h2 hmo hninv).1
  rw [export_item_as_row]
  have : ∀ hs : List String, (∀ h2, h2 ∈ hs → ∃ v, export_cell e item h2 = .ok v) →
      ∃ row, export_cells e item hs = .ok row := by
    intro hs
    induction hs with
    | nil => intro _; exact ⟨[], rfl⟩
    | cons hd tl ih =>
      intro hall
      obtain ⟨v, hv⟩ := hall hd (by simp)
      obtain ⟨row, hrow⟩ := ih (fun h2 hm => hall h2 (by simp [hm]))
      exact ⟨v :: row, by simp [export_cells, hv, hrow]⟩
  exact this e.headers cellok

/-- Record and exporter for the C1 witness: every option path and
header path is absent from the empty record, so the row is all empty
strings. -/
theorem export_lookup_miss_behaviour_witness :
    (∀ p, memA e3W.field_options p = true → cutLook [] e3W.cut_separator p = .missing) ∧
    ∃ row, export_item_as_row e3W [] = .ok row := by
  have hfo : e3W.field_options = [("c", opt3)] := rfl
  have hopt : ∀ p, memA e3W.field_options p = true →
      cutLook [] e3W.cut_separator p = .missing := by
    intro p hp
    by_cases hc : "c" = p
    · rw [← hc]
      rfl
    · rw [hfo] at hp
      simp [memA, lookupA, hc] at hp
  refine ⟨hopt, (export_lookup_miss_behaviour e3W []).2.2 hopt ?_⟩
  intro h2 _ _ hmem
  have hiv : e3W.invalid_properties = [] := rfl
  rw [hiv] at hmem
  simp [memA, lookupA] at hmem
/-- Collector with `named_columns_limit = 1`, for the C4 counterexample. -/
def scLim : StatsCollector := { named_columns_limit := 1 }

def c4r1 : JValue := vObj [("a", vObj [("b", vObj [("x", vStr "v1")])])]

def c4r2 : JValue := vObj [("a", vObj [("b", vObj [("x", vStr "v2")])])]

def c4r3 : JValue := vObj [("a", vInt 5)]

def c4r4 : JValue := vObj [("a->b", vArr [vObj [("x", vInt 99)]])]

/-- The collector state after the first two records (value computed by
the embedded collector; the equality is asserted in the theorem). -/
def c4st2 : StatsCollector :=
  { named_columns_limit := 1,
    stats := [("a", { count := some 0, type := some "object" }),
              ("a->b", { properties := some [("x", { values := [], limited := true })],
                         type := some "object" })] }

/-- The collector state after all four records. -/
def c4st4 : StatsCollector :=
  { named_columns_limit := 1,
    stats := [("a", {}),
              ("a->b", { count := some 1,
                         properties := some [("x", { values := [JValue.vInt 99],
                                                     limited := false })],
                         type := some "array" })],
    invalid_properties := [("a", "hashable value for non-hashable field")] }

set_option maxHeartbeats 2000000 in
/-- C4 counterexample: the limited latch is NOT one-way at the
collector level.  With `named_columns_limit = 1`, two records drive
property `x` of path `a->b` into `(values = {}, limited = True)`.  A
third record makes `a` scalar, which invalidates `a` and purges the
descendant entry `a->b`; a fourth record whose top-level key is the
string `"a->b"` (embedding the separator) then re-creates the same path
fresh, with `limited = False` and a collected value — the same
sub-property ends un-limited with non-empty values. -/
theorem limited_latch_reset_by_alias :
    process_items scLim (vArr [c4r1, c4r2]) = .ok c4st2 ∧
    process_items scLim (vArr ([c4r1, c4r2] ++ [c4r3, c4r4])) = .ok c4st4 ∧
    c4st4 = ((c4st2.process_object_run [("a", vInt 5)] "").process_object_run
      [("a->b", vArr [vObj [("x", vInt 99)]])] "") ∧
    propAt c4st2 "a->b" "x" = some { values := [], limited := true } ∧
    propAt c4st4 "a->b" "x" = some { values := [JValue.vInt 99], limited := false } :=
  ⟨rfl, rfl, rfl, rfl, rfl⟩

/-- Assigning a key and reading it back (helper for C4). -/
theorem lookupA_setA_self {α : Type} (l : List (String × α)) (k : String) (v : α) :
    lookupA (setA l k v) k = some v := by
  induction l with
  | nil => simp [setA, lookupA]
  | cons kv rest ih =>
    by_cases hk : kv.1 = k
    · cases kv
      simp_all [setA, lookupA]
    · cases kv
      simp_all [setA, lookupA]

/-- C4 (amended): the latch is one-way at the level of
`_process_hashable_value`, the only code that writes `limited`: a
limited property makes the call a complete no-op (state unchanged, so
`values` stays empty forever under this function), and an un-limited
property accumulates the distinct new value, flipping to
`(values = {}, limited = True)` exactly when the accumulated distinct
values exceed `named_columns_limit`.  At the whole-collector level the
latch can still be evaded: a record may invalidate an ancestor (purging
the property) and a separator-embedding key may re-create the purged
path fresh — see the counterexample. -/
theorem process_hashable_value_latch (sc : StatsCollector) (p n : String) (v : JValue)
    (pd : Property) (hpd : propAt sc p n = some pd) :
    (pd.limited = true → sc.process_hashable_value n v p = sc) ∧
    (pd.limited = false →
      ∃ pd', propAt (sc.process_hashable_value n v p) p n = some pd' ∧
        ((pd'.limited = true ∧ pd'.values = [] ∧
           (if pd.values.any (fun w => jbeq w v) then pd.values
            else pd.values ++ [v]).length > sc.named_columns_limit) ∨
         (pd'.limited = false ∧
           pd'.values = (if pd.values.any (fun w => jbeq w v) then pd.values
                         else pd.values ++ [v]) ∧
           pd'.values.length ≤ sc.named_columns_limit))) := by
  rw [propAt, propsAt] at hpd
  cases hdd : lookupA sc.stats p with
  | none => simp [hdd] at hpd
  | some d =>
    simp only [hdd] at hpd
    cases hpp : d.properties with
    | none => simp [hpp] at hpd
    | some props =>
      simp only [hpp] at hpd
      constructor
      · intro hlim
        simp only [StatsCollector.process_hashable_value, hdd, hpp, hpd, hlim, if_true]
      · intro hlim
        simp only [StatsCollector.process_hashable_value, hdd, hpp, hpd, hlim,
          Bool.false_eq_true, if_false]
        by_cases hgt : (if pd.values.any (fun w => jbeq w v) then pd.values
            else pd.values ++ [v]).length > sc.named_columns_limit
        · refine ⟨{ values := [], limited := true }, ?_, Or.inl ⟨rfl, rfl, hgt⟩⟩
          simp only [hgt, if_true]
          rw [propAt, propsAt]
          simp [lookupA_setA_self]
        · refine ⟨{ values := (if pd.values.any (fun w => jbeq w v) then pd.values
              else pd.values ++ [v]), limited := false }, ?_,
            Or.inr ⟨rfl, rfl, Nat.not_lt.mp hgt⟩⟩
          simp only [hgt, if_false]
          rw [propAt, propsAt]
          simp [lookupA_setA_self, hgt]

/-- Concrete latched collector for the C4 witness. -/
def scW4 : StatsCollector :=
  { stats := [("c", { properties := some [("x", { values := [], limited := true })],
                      type := some "object" })] }

theorem process_hashable_value_latch_witness :
    propAt scW4 "c" "x" = some { values := [], limited := true } ∧
    scW4.process_hashable_value "x" (JValue.vInt 7) "c" = scW4 :=
  ⟨rfl, (process_hashable_value_latch scW4 "c" "x" (JValue.vInt 7)
    { values := [], limited := true } rfl).1 rfl⟩

/-- First record of the C2 counterexample: `c` is an array of two
objects whose only property is itself an array (no hashable values, no
collected properties). -/
def c2r1 : List (String × JValue) :=
  [("c", vArr [vObj [("a", vArr [vInt 1])], vObj [("a", vArr [vInt 2])]])]

/-- Second record: `c` is an array of one object with a hashable value. -/
def c2r2 : List (String × JValue) := [("c", vArr [vObj [("x", vInt 1)]])]

/-- Collector state after the two-record batch (value computed by the
embedded collector; asserted in the theorem). -/
def c2st : StatsCollector :=
  { stats := [("c", { count := some 1,
                      properties := some [("x", { values := [vInt 1], limited := false })],
                      type := some "array" }),
              ("c[0]->a", { count := some 1, properties := some [], type := some "array" }),
              ("c[1]->a", { count := some 1, properties := some [], type := some "array" })] }

/-- First record of the purge scenario: a scalar array at the nested
path `a->b` (observed length 2). -/
def c2r3 : List (String × JValue) := [("a", vObj [("b", vArr [vInt 1, vInt 2])])]

/-- Second record: `a` becomes scalar, invalidating it and purging the
descendant entry `a->b`. -/
def c2r4 : List (String × JValue) := [("a", vInt 5)]

/-- Collector state after `c2r3` alone. -/
def c2stA : StatsCollector :=
  { stats := [("a", { count := some 0, type := some "object" }),
              ("a->b", { count := some 2, properties := some [], type := some "array" })] }

/-- Collector state after `c2r3` then `c2r4`: `a->b` is gone. -/
def c2stB : StatsCollector :=
  { stats := [("a", {})],
    invalid_properties := [("a", "hashable value for non-hashable field")] }

set_option maxHeartbeats 2000000 in
/-- C2 counterexample: `Stats[path].count` does not equal the maximum
observed sequence length, and it can decrease.  Failure one: the first
record holds a length-2 array at `c`, but `_process_base_array` skips
the count update when the elements contribute neither properties nor
hashable values; the second record (length 1) then raises the count to
1, and the descriptor for `c` survives the stats filter with
`count = 1 < 2`.  Failure two: even when every observed value at a path
(`a->b`) is an array of scalars, a later record can make an ancestor
scalar, which invalidates the ancestor and purges the entry — the count
at `a->b` goes from 2 to absent although the max observed length is 2. -/
theorem array_count_below_max_observed :
    process_items scDefault (vArr [vObj c2r1, vObj c2r2]) = .ok c2st ∧
    lookupA c2r1 "c" =
      some (vArr [vObj [("a", vArr [vInt 1])], vObj [("a", vArr [vInt 2])]]) ∧
    ([vObj [("a", vArr [vInt 1])], vObj [("a", vArr [vInt 2])]] : List JValue).length = 2 ∧
    countAt c2st "c" = some 1 ∧
    memA (filter_stats c2st.stats) "c" = true ∧
    process_items scDefault (vArr [vObj c2r3]) = .ok c2stA ∧
    process_items scDefault (vArr [vObj c2r3, vObj c2r4]) = .ok c2stB ∧
    countAt c2stA "a->b" = some 2 ∧
    lookupA c2stB.stats "a->b" = none :=
  ⟨rfl, rfl, rfl, rfl, rfl, rfl, rfl, rfl, rfl⟩

/-- Scalars are not objects. -/
theorem hashable_not_obj {x : JValue} (h : is_hashable x = true) : isObj x = false := by
  cases x <;> simp_all [is_hashable, isObj]

/-- Scalars are not lists. -/
theorem hashable_not_list {x : JValue} (h : is_hashable x = true) : is_list x = false := by
  cases x <;> simp_all [is_hashable, is_list]

/-- The single-field array state reached by scalar-array batches: the
descriptor `_process_array` maintains at a top-level field. -/
def kState (k : String) (c : Nat) : StatsCollector :=
  { stats := [(k, { count := some c, properties := some [], type := some "array" })] }

/-- `kState` with an optional count (`none` = field not yet created). -/
def kStateC (k : String) : Option Nat → StatsCollector
  | none => scDefault
  | some c => kState k c

/-- Count evolution of a scalar-array step: empty arrays are skipped,
the first non-empty array creates the descriptor, later arrays take the
max. -/
def nextC : Option Nat → Nat → Option Nat
  | none, l => if l = 0 then none else some l
  | some c, l => some (max c l)

/-- Helper for C2: one scalar-array record moves the collector from
`kStateC k oc` to `kStateC k (nextC oc xs.length)`. -/
theorem scalar_step (f : Nat) (k : String) (hk : ¬ k = "") (xs : List JValue)
    (hsc : ∀ x ∈ xs, is_hashable x = true) (oc : Option Nat) :
    process_object (f + 3) (kStateC k oc) [(k, vArr xs)] "" =
      kStateC k (nextC oc xs.length) := by
  have hobj : xs.any isObj = false := by
    rw [List.any_eq_false]
    intro x hx
    simp [hashable_not_obj (hsc x hx)]
  have hlst : xs.any is_list = false := by
    rw [List.any_eq_false]
    intro x hx
    simp [hashable_not_list (hsc x hx)]
  cases oc with
  | none =>
    show process_object (f + 2 + 1) scDefault [(k, vArr xs)] "" = _
    cases xs with
    | nil =>
      simp [process_object, process_base_object, process_array, is_hashable,
        lookupA, setA, memA, countAt, kStateC, nextC, scDefault]
    | cons x0 rest =>
      have hx0 : is_hashable x0 = true := hsc x0 (by simp)
      rw [process_object]
      simp [memA, lookupA, countAt, scDefault, is_hashable]
      rw [process_base_object]
      simp [memA, lookupA, setA, is_hashable, hk]
      rw [process_array]
      simp [memA, lookupA, setA, hobj, hlst, hx0, kStateC, kState, nextC]
  | some c =>
    show process_object (f + 2 + 1) (kState k c) [(k, vArr xs)] "" = _
    cases xs with
    | nil =>
      simp [process_object, process_base_object, process_array, is_hashable,
        lookupA, setA, memA, countAt, kStateC, kState, nextC, hk,
        Header.truthy, Header.isEmptyD, matchesType, is_list]
    | cons x0 rest =>
      have hx0 : is_hashable x0 = true := hsc x0 (by simp)
      rw [process_object]
      simp [memA, lookupA, countAt, kState, is_hashable, hk]
      rw [process_base_object]
      simp [memA, lookupA, setA, is_hashable, hk, Header.truthy, Header.isEmptyD,
        matchesType, is_list]
      rw [process_array]
      simp [memA, lookupA, setA, hobj, hlst, hx0, kStateC, kState, nextC, hk]

/-- A batch of scalar-array records at a single top-level field, fed
one record at a time through `process_object` (as `process_items`
does). -/
def scalarBatchState (k : String) (xss : List (List JValue)) : StatsCollector :=
  xss.foldl (fun st xs => st.process_object_run [(k, vArr xs)] "") scDefault

/-- The claim-side measure: the maximum observed sequence length over
the batch ("max over those records of the observed sequence length"). -/
def observedMaxLen (xss : List (List JValue)) : Nat :=
  xss.foldl (fun m xs => max m xs.length) 0

/-- Helper for C2: the whole batch folds like `nextC`. -/
theorem scalarBatch_fold (k : String) (hk : ¬ k = "") :
    ∀ (xss : List (List JValue)) (oc : Option Nat),
      (∀ xs ∈ xss, ∀ x ∈ xs, is_hashable x = true) →
      xss.foldl (fun st xs => st.process_object_run [(k, vArr xs)] "") (kStateC k oc) =
        kStateC k (xss.foldl (fun oc2 xs => nextC oc2 xs.length) oc) := by
  intro xss
  induction xss with
  | nil => intro oc _; rfl
  | cons xs rest ih =>
    intro oc hsc
    simp only [List.foldl_cons]
    have hstep : (kStateC k oc).process_object_run [(k, vArr xs)] "" =
        kStateC k (nextC oc xs.length) := by
      have h3 : 3 ≤ fuelFor [(k, vArr xs)] := by
        rw [StatsCollector.fuelFor]
        omega
      have hf : fuelFor [(k, vArr xs)] = (fuelFor [(k, vArr xs)] - 3) + 3 := by omega
      rw [StatsCollector.process_object_run, hf]
      exact scalar_step _ k hk xs (hsc xs (by simp)) oc
    rw [hstep]
    exact ih _ (fun ys hys => hsc ys (by simp [hys]))

/-- Helper for C2: folding `nextC` from a created descriptor is a max
fold. -/
theorem foldl_nextC_some (xss : List (List JValue)) :
    ∀ c : Nat, xss.foldl (fun oc2 xs => nextC oc2 xs.length) (some c) =
      some (xss.foldl (fun m xs => max m xs.length) c) := by
  induction xss with
  | nil => intro c; rfl
  | cons xs rest ih =>
    intro c
    simp only [List.foldl_cons]
    have hn : nextC (some c) xs.length = some (max c xs.length) := rfl
    rw [hn]
    exact ih _

/-- Helper for C2: a max fold dominates its base. -/
theorem le_foldl_max (xss : List (List JValue)) :
    ∀ c : Nat, c ≤ xss.foldl (fun m xs => max m xs.length) c := by
  induction xss with
  | nil => intro c; simp
  | cons xs rest ih =>
    intro c
    simp only [List.foldl_cons]
    exact le_trans (Nat.le_max_left c xs.length) (ih _)

/-- Helper for C2: folding `nextC` from scratch computes the observed
max (with `none` exactly when every array was empty). -/
theorem foldl_nextC_none (xss : List (List JValue)) :
    xss.foldl (fun oc2 xs => nextC oc2 xs.length) none =
      (if observedMaxLen xss = 0 then none else some (observedMaxLen xss)) := by
  induction xss with
  | nil => rfl
  | cons xs rest ih =>
    by_cases hlen : xs.length = 0
    · simp only [List.foldl_cons]
      have hn : nextC none xs.length = none := by simp [nextC, hlen]
      rw [hn, ih]
      have : observedMaxLen (xs :: rest) = observedMaxLen rest := by
        simp [observedMaxLen, hlen]
      rw [this]
    · simp only [List.foldl_cons]
      have hn : nextC none xs.length = some xs.length := by simp [nextC, hlen]
      rw [hn, foldl_nextC_some]
      have hM : observedMaxLen (xs :: rest) =
          rest.foldl (fun m ys => max m ys.length) xs.length := by
        simp [observedMaxLen]
      have hMne : observedMaxLen (xs :: rest) ≠ 0 := by
        rw [hM]
        have := le_foldl_max rest xs.length
        omega
      rw [if_neg hMne, hM]

/-- C2 (amended): for batches of single-field records `{k: array}` at a
fixed top-level field `k`, with every array element a scalar,
`Stats[k].count` does equal the max observed sequence length (absent
when every array was empty — the entry is never created), and it is
monotone over batch prefixes.  Outside this scope the property fails:
arrays of objects can skip the count update entirely, and invalidation
of an ancestor purges the entry so a count can even disappear — both
shown in the counterexample. -/
theorem scalar_array_count_is_max (k : String) (hk : ¬ k = "")
    (xss : List (List JValue))
    (hsc : ∀ xs ∈ xss, ∀ x ∈ xs, is_hashable x = true) :
    process_items scDefault (vArr (xss.map (fun xs => vObj [(k, vArr xs)]))) =
      .ok (scalarBatchState k xss) ∧
    countAt (scalarBatchState k xss) k =
      (if observedMaxLen xss = 0 then none else some (observedMaxLen xss)) ∧
    ∀ n, (countAt (scalarBatchState k (xss.take n)) k).getD 0 ≤
         (countAt (scalarBatchState k xss) k).getD 0 := by
  have hbatch : ∀ yss : List (List JValue),
      (∀ xs ∈ yss, ∀ x ∈ xs, is_hashable x = true) →
      countAt (scalarBatchState k yss) k =
        (if observedMaxLen yss = 0 then none else some (observedMaxLen yss)) := by
    intro yss hsc2
    have h1 : scalarBatchState k yss =
        kStateC k (yss.foldl (fun oc2 xs => nextC oc2 xs.length) none) := by
      rw [scalarBatchState, show scDefault = kStateC k none from rfl]
      exact scalarBatch_fold k hk yss none hsc2
    rw [h1, foldl_nextC_none]
    by_cases hM : observedMaxLen yss = 0
    · simp [hM, kStateC, scDefault, countAt, lookupA]
    · simp [hM, kStateC, kState, countAt, lookupA]
  refine ⟨?_, hbatch xss hsc, ?_⟩
  · cases xss with
    | nil => rfl
    | cons xs0 rest =>
      have hhom : ((rest.map (fun xs => vObj [(k, vArr xs)])).any
          (fun x => pyTypeTag x ≠ pyTypeTag (vObj [(k, vArr xs0)]))) = false := by
        rw [List.any_eq_false]
        intro x hx
        obtain ⟨ys, _, hys⟩ := List.mem_map.mp hx
        subst hys
        simp [pyTypeTag]
      simp only [process_items, is_list, List.map_cons, Bool.not_true,
        Bool.false_eq_true, if_false, hhom]
      simp only [List.foldl_cons]
      rw [List.foldl_map]
      rfl
  · intro n
    have htake : ∀ xs ∈ xss.take n, ∀ x ∈ xs, is_hashable x = true :=
      fun xs hxs => hsc xs (List.take_subset n xss hxs)
    rw [hbatch _ htake, hbatch _ hsc]
    have hgd : ∀ m : Nat, ((if m = 0 then none else some m) : Option Nat).getD 0 = m := by
      intro m
      by_cases hm : m = 0
      · simp [hm]
      · simp [hm]
    rw [hgd, hgd]
    have hsplit : observedMaxLen xss =
        (xss.drop n).foldl (fun m xs => max m xs.length) (observedMaxLen (xss.take n)) := by
      rw [observedMaxLen, observedMaxLen, ← List.foldl_append, List.take_append_drop]
    rw [hsplit]
    exact le_foldl_max _ _

theorem scalar_array_count_is_max_witness :
    countAt (scalarBatchState "c" [[vInt 1, vInt 2], [vInt 1, vInt 2, vInt 3]]) "c" =
      (if observedMaxLen [[vInt 1, vInt 2], [vInt 1, vInt 2, vInt 3]] = 0 then none
       else some (observedMaxLen [[vInt 1, vInt 2], [vInt 1, vInt 2, vInt 3]])) :=
  (scalar_array_count_is_max "c" (by simp)
    [[vInt 1, vInt 2], [vInt 1, vInt 2, vInt 3]] (by decide)).2.1

end Flat
